import Mathlib

/-
Verification of the triton-kbmapi data-access layer and endpoint handlers.

The development shallow-embeds the JavaScript sources:
  * src/lib/apis/moray.js        (array codec, ldapFilter, initBucket, updateObj)
  * src/lib/endpoints/pivtokens.js (preload, archive-then-delete, handlers, routes)
  * the recovery-configurations endpoints file (updateRecoveryConfiguration)
JavaScript objects are association lists in key-insertion order; JS strings are
Lean strings, with the character-level operations (split, join, replace of a
single leading or trailing delimiter) modelled on the underlying character
lists.  Asynchronous store operations are modelled by threading explicit state
and by oracle arguments that choose each store call outcome; callbacks
receiving `(err, res)` become values of explicit result types.  The model
layer (lib/models) and lib/auth.js are not part of the analyzed sources; the
few facts needed from them are modelled from the specification and are marked
as such in their doc comments.
-/

/-- JavaScript primitive values that occur as elements of array-valued
fields (array entries are strings or numbers in this code base). -/
inductive JPrim where
  | pstr (s : String)
  | pnum (n : Int)
deriving DecidableEq

/-- JavaScript values stored in parameter objects and moray records. -/
inductive JVal where
  | vstr (s : String)
  | vnum (n : Int)
  | vbool (b : Bool)
  | varr (elts : List JPrim)
deriving DecidableEq

/-- A JavaScript object: an association list in key-insertion order. -/
abbrev JObj := List (String × JVal)

/-- Property read `o[k]` (first binding wins; JS objects have unique keys). -/
def getKey (o : JObj) (k : String) : Option JVal :=
  match o with
  | [] => none
  | (k2, v) :: rest => if k2 = k then some v else getKey rest k

/-- Property assignment `o[k] = v`: replaces the value in place when the key
exists, otherwise appends the new binding (JS insertion order). -/
def setKey (o : JObj) (k : String) (v : JVal) : JObj :=
  match o with
  | [] => [(k, v)]
  | (k2, v2) :: rest => if k2 = k then (k2, v) :: rest else (k2, v2) :: setKey rest k v

/-- Property deletion `delete o[k]`. -/
def eraseKey (o : JObj) (k : String) : JObj :=
  o.filter (fun kv => kv.1 != k)

/-- JS `s.split(sep)` for a one-character separator, on the character list:
splitting the empty string yields one empty piece, and each separator
occurrence starts a new piece. -/
def jsSplitChar (sep : Char) : List Char → List (List Char)
  | [] => [[]]
  | c :: rest =>
    if c = sep then [] :: jsSplitChar sep rest
    else
      match jsSplitChar sep rest with
      | [] => [[c]]
      | x :: xs => (c :: x) :: xs

/-- JS `arr.join(sep)` for a one-character separator, on character lists. -/
def jsJoinChar (sep : Char) : List (List Char) → List Char
  | [] => []
  | [x] => x
  | x :: xs => x ++ sep :: jsJoinChar sep xs

/-- JS `s.replace(anchored-leading-sep, empty)`: removes one leading
separator when present. -/
def stripLeadChar (sep : Char) (s : List Char) : List Char :=
  match s with
  | [] => []
  | c :: rest => if c = sep then rest else c :: rest

/-- JS `s.replace(anchored-trailing-sep, empty)`: removes one trailing
separator when present. -/
def stripTrailChar (sep : Char) (s : List Char) : List Char :=
  if s.getLast? = some sep then s.dropLast else s

/-- An error delivered to a node-style callback: restify/moray errors carry
an HTTP status code and a message. -/
structure HErr where
  statusCode : Nat
  message : String
deriving DecidableEq

/-- `arrayToVal` from src/lib/apis/moray.js: encodes an array as the
delimited scalar string `(comma) + arr.join(comma) + (comma)`. -/
def arrayToVal (arr : List String) : String :=
  String.mk (',' :: jsJoinChar ',' (arr.map String.data) ++ [','])

/-- `arrayify` from src/lib/apis/moray.js: objects (arrays) pass through,
the empty string becomes the empty array, any other string is split on the
comma.  Calling it on a number or boolean would throw in JS (`split` is not
a function), modelled by the error case. -/
def arrayify : JVal → Except String JVal
  | .varr l => .ok (.varr l)
  | .vstr s =>
      if s = "" then .ok (.varr [])
      else .ok (.varr ((jsSplitChar ',' s.data).map (fun p => JPrim.pstr (String.mk p))))
  | _ => .error "TypeError: obj.split is not a function"

/-- `valToArray` from src/lib/apis/moray.js: no-op when the key is absent or
already holds an object; the delimiter-only string deletes the key; any other
string is stripped of one leading and one trailing delimiter and arrayified
back into the params object.  A number or boolean value would throw in JS
(`replace` is not a function). -/
def valToArray (params : JObj) (key : String) : Except String JObj :=
  match getKey params key with
  | none => .ok params
  | some (.varr _) => .ok params
  | some (.vstr s) =>
      if s = ",," then .ok (eraseKey params key)
      else
        match arrayify (.vstr (String.mk (stripTrailChar ',' (stripLeadChar ',' s.data)))) with
        | .ok a => .ok (setKey params key a)
        | .error e => .error e
  | some _ => .error "TypeError: params value has no replace method"

/-- Whitespace trim from the left of a character list. -/
def trimLeadWs (l : List Char) : List Char :=
  l.dropWhile (fun c => c.isWhitespace)

/-- Whitespace trim from the right of a character list. -/
def trimTrailWs (l : List Char) : List Char :=
  (l.reverse.dropWhile (fun c => c.isWhitespace)).reverse

/-- Helper for `splitCommaWs`: every piece after the first follows a comma,
so its leading whitespace was consumed by the separator pattern; every piece
before another piece precedes a comma, so its trailing whitespace was
consumed as well. -/
def splitCommaWsTail : List (List Char) → List String
  | [] => []
  | [p] => [String.mk (trimLeadWs p)]
  | p :: rest => String.mk (trimLeadWs (trimTrailWs p)) :: splitCommaWsTail rest

/-- JS `s.split(comma-with-surrounding-whitespace-pattern)` as used by
ldapFilter to turn comma-separated values into a list: split on commas,
consuming the whitespace adjacent to each comma (whitespace at the very ends
of the string is kept, as the pattern needs a comma to match). -/
def splitCommaWs (s : String) : List String :=
  match jsSplitChar ',' s.data with
  | [] => []
  | [p] => [String.mk p]
  | p :: rest => String.mk (trimTrailWs p) :: splitCommaWsTail rest

/-- Indexed-field schema of a moray bucket (`schema.index` key set, plus the
`options.version` slot that initBucket fills in on creation). -/
structure BucketSchema where
  index : List String
  optionsVersion : Option Nat := none
deriving DecidableEq

/-- A bucket configuration object as passed around src/lib/apis/moray.js:
`name`, `desc`, `schema`, the optional declared `version`, and the
`name_prefixed` marker initBucket sets after applying the test prefix. -/
structure BucketCfg where
  name : String
  desc : String
  schema : BucketSchema
  version : Option Nat := none
  name_prefixed : Bool := false
deriving DecidableEq

/-- The input of ldapFilter: JS permits null/undefined, a raw filter string,
or a parameter object. -/
inductive FilterInput where
  | null
  | str (s : String)
  | obj (o : JObj)
deriving DecidableEq

/-- The comma-separated-value normalization ldapFilter applies to each
retained key: a string value containing a comma is replaced by the list of
its comma-separated pieces. -/
def normVal (v : JVal) : JVal :=
  match v with
  | .vstr s => if s.data.contains ',' then .varr ((splitCommaWs s).map JPrim.pstr)
               else .vstr s
  | v => v

/-- Predicate text pushed for one element of an array-valued (or
comma-split) filter value: numbers use the numeric format, strings starting
with the bang character are negated. -/
def eltPred (i : String) (p : JPrim) : String :=
  match p with
  | .pnum n => "(" ++ i ++ "=" ++ toString n ++ ")"
  | .pstr s =>
      if s.data.take 1 = ['!'] then "(!(" ++ i ++ "=" ++ String.mk (s.data.drop 1) ++ "))"
      else "(" ++ i ++ "=" ++ s ++ ")"

/-- The list of strings ldapFilter pushes for one key/value pair: array
values become an or-group, booleans assert or negate equality with true,
and remaining scalars become a single equality predicate. -/
def keyPreds (i : String) (v : JVal) : List String :=
  match normVal v with
  | .varr l => "(|" :: (l.map (eltPred i) ++ [")"])
  | .vbool b => if b then ["(" ++ i ++ "=true)"] else ["(!(" ++ i ++ "=true))"]
  | .vstr s => ["(" ++ i ++ "=" ++ s ++ ")"]
  | .vnum n => ["(" ++ i ++ "=" ++ toString n ++ ")"]

/-- Whether ldapFilter keeps a key: kept unless a bucket was supplied and
the key is not in `bucket.schema.index`. -/
def keyIndexed (bucket : Option BucketCfg) (i : String) : Bool :=
  match bucket with
  | none => true
  | some b => b.schema.index.contains i

/-- One step of the reduce inside ldapFilter. -/
def filterStep (bucket : Option BucketCfg) (arr : List String) (kv : String × JVal) :
    List String :=
  if keyIndexed bucket kv.1 then arr ++ keyPreds kv.1 kv.2 else arr

/-- `ldapFilter` from src/lib/apis/moray.js.  Falsy input yields the empty
string, a string input is returned as is, an empty object yields the empty
string, and an object owning a `filter` property returns that property
value verbatim: the source guards it with `typeof` applied to the result of
the string comparison, which is the string "boolean", a nonempty and hence
truthy value, so the type guard accepts every value.  Otherwise the indexed
keys are reduced to predicate strings, wrapped in an and-group when more
than one was produced.  The return type is `JVal` because the
filter-property branch passes any value through. -/
def ldapFilter (inObj : FilterInput) (bucket : Option BucketCfg) : JVal :=
  match inObj with
  | .null => .vstr ""
  | .str s => .vstr s
  | .obj o =>
    if o = [] then .vstr ""
    else
      match getKey o "filter" with
      | some v => v
      | none =>
        let filterBy := o.foldl (filterStep bucket) []
        let wrapped := if filterBy.length > 1 then ("(&" :: filterBy) ++ [")"] else filterBy
        .vstr (String.join wrapped)

/-- Closed form of the ldapFilter reduce: the concatenation of the
predicate lists of the kept keys, in order. -/
def predList (bucket : Option BucketCfg) : JObj → List String
  | [] => []
  | kv :: rest =>
      (if keyIndexed bucket kv.1 then keyPreds kv.1 kv.2 else []) ++ predList bucket rest

/-- Outcome of `moray.getBucket` as initBucket distinguishes the cases: the
bucket exists, the error chain holds BucketNotFoundError, or some other
error occurred. -/
inductive GetBucketRes where
  | found
  | notFound
  | err (e : HErr)
deriving DecidableEq

/-- Observable result of `initBucket`: the error handed to the callback (if
any), the `createBucket` call that was issued (bucket name and schema
actually passed), and the bucket configuration object after the possible
prefix rewrite. -/
structure InitBucketRes where
  err : Option HErr
  created : Option (String × BucketSchema)
  bucket : BucketCfg
deriving DecidableEq

/-- `initBucket` from src/lib/apis/moray.js.  `pfx` is the module-level
bucket prefix, `getRes` the outcome of the `getBucket` call and `createErr`
the outcome of the `createBucket` call (used only when creation is
attempted).  On "exists" the callback receives no error and nothing is
created; on BucketNotFoundError the bucket is created with the deep-copied
schema, extended with `options.version` when the bucket declares a version;
any other get error, and any create error, is passed to the callback. -/
def initBucket (pfx : String) (bucket0 : BucketCfg) (getRes : GetBucketRes)
    (createErr : Option HErr) : InitBucketRes :=
  let schema := bucket0.schema
  let renamed := pfx ≠ "" ∧ bucket0.name_prefixed = false
  let name := if renamed then pfx ++ bucket0.name else bucket0.name
  let bucket := if renamed then { bucket0 with name := name, name_prefixed := true }
                else bucket0
  match getRes with
  | .found => { err := none, created := none, bucket := bucket }
  | .err e => { err := some e, created := none, bucket := bucket }
  | .notFound =>
    let schema2 := match bucket.version with
      | some v => { schema with optionsVersion := some v }
      | none => schema
    { err := createErr, created := some (name, schema2), bucket := bucket }

/-- The merged value built inside `updateObj`: a deep copy of the original
in which each key of `val` is assigned (or deleted when `remove` is set), in
the iteration order of `val`. -/
def updateObjValue (original val : JObj) (rmv : Bool) : JObj :=
  val.foldl (fun acc kv => if rmv then eraseKey acc kv.1 else setKey acc kv.1 kv.2) original

/-- Observable result of `updateObj`: the callback error (if any), the value
passed to `putObject`, and the `{ value: ... }` object handed to the callback
on success (the same merged value with its etag updated to the tag returned
by the store). -/
structure UpdateObjRes where
  err : Option HErr
  written : JObj
  result : Option JObj
deriving DecidableEq

/-- `updateObj` from src/lib/apis/moray.js.  `putRes` is the outcome of the
conditional put: an error or the new entity tag. -/
def updateObj (original val : JObj) (rmv : Bool) (putRes : Except HErr String) :
    UpdateObjRes :=
  let value := updateObjValue original val rmv
  match putRes with
  | .error e => { err := some e, written := value, result := none }
  | .ok newTag =>
      { err := none, written := value,
        result := some (setKey value "etag" (JVal.vstr newTag)) }

/-- A PIV token record, with the fields the analyzed endpoints touch.
Modelled from the spec: the model layer (lib/models) is not among the
analyzed sources; per the data model a token is identified by its hardware
GUID and holds public key material, a PIN, a recovery token secret and the
compute-node association. -/
structure PivToken where
  guid : String
  cn_uuid : String
  pin : String
  pubkeys : String
  recovery_token : String
deriving DecidableEq

/-- The public (serialized) view of a PIV token.  Modelled from the spec:
`serialize` produces the public view, redacting secrets such as the PIN and
the recovery token. -/
structure PivTokenPublic where
  guid : String
  cn_uuid : String
  pubkeys : String
deriving DecidableEq

/-- Modelled from the spec: serialization of a PIV token to its public
view. -/
def PivToken.serialize (t : PivToken) : PivTokenPublic :=
  { guid := t.guid, cn_uuid := t.cn_uuid, pubkeys := t.pubkeys }

/-- The storage state the pivtoken endpoints mutate: the live pivtokens
bucket and the pivtoken history bucket. -/
structure PivStore where
  live : List PivToken
  hist : List PivToken
deriving DecidableEq

/-- Key lookup in the pivtokens bucket (tokens are keyed by GUID). -/
def findByGuid (live : List PivToken) (g : String) : Option PivToken :=
  live.find? (fun t => t.guid == g)

/-- Modelled from the spec: `mod_pivtoken.getPin` of the model layer (not
among the analyzed sources) reads the full record by GUID and fails with a
404 NotFound error when it is absent; `storeErr` injects any other store
failure. -/
def modGetPin (live : List PivToken) (storeErr : Option HErr) (g : String) :
    Except HErr PivToken :=
  match storeErr with
  | some e => .error e
  | none =>
    match findByGuid live g with
    | some t => .ok t
    | none => .error { statusCode := 404, message := "pivtoken not found" }

/-- Modelled from the spec: `mod_pivtoken_history.create` durably appends an
archival copy of the raw token to the history bucket; `histErr` injects a
store failure, in which case nothing is written. -/
def modHistoryCreate (st : PivStore) (tok : PivToken) (histErr : Option HErr) :
    Option HErr × PivStore :=
  match histErr with
  | some e => (some e, st)
  | none => (none, { st with hist := st.hist ++ [tok] })

/-- Modelled from the spec: `mod_pivtoken.del` removes the live record keyed
by the token GUID; `delErr` injects a store failure, in which case nothing
is removed. -/
def modPivtokenDel (st : PivStore) (tok : PivToken) (delErr : Option HErr) :
    Option HErr × PivStore :=
  match delErr with
  | some e => (some e, st)
  | none => (none, { st with live := st.live.filter (fun u => u.guid != tok.guid) })

/-- Modelled from the spec: `mod_pivtoken.create` is idempotent for
PivToken - when a token with the same GUID already exists it returns the
existing token rather than erroring, otherwise it stores the token built
from the request parameters; `createErr` injects a store failure. -/
def modPivtokenCreate (st : PivStore) (params : PivToken) (createErr : Option HErr) :
    Except HErr (PivToken × PivStore) :=
  match createErr with
  | some e => .error e
  | none =>
    match findByGuid st.live params.guid with
    | some t => .ok (t, st)
    | none => .ok (params, { st with live := st.live ++ [params] })

/-- `archiveAndDeletePivtoken` from src/lib/endpoints/pivtokens.js: create a
history record from the raw token, and only if that succeeded delete the
live pivtoken; the first error aborts and is handed to the callback. -/
def archiveAndDeletePivtoken (st : PivStore) (tok : PivToken)
    (histErr delErr : Option HErr) : Option HErr × PivStore :=
  match modHistoryCreate st tok histErr with
  | (some e, st1) => (some e, st1)
  | (none, st1) =>
    match modPivtokenDel st1 tok delErr with
    | (some e, st2) => (some e, st2)
    | (none, st2) => (none, st2)

/-- Body of an HTTP response of the pivtoken endpoints. -/
inductive RespBody where
  | empty
  | pub (t : PivTokenPublic)
  | err (msg : String)
deriving DecidableEq

/-- An HTTP response: status code and body. -/
structure HttpResp where
  status : Nat
  body : RespBody
deriving DecidableEq

/-- Rendering of `next(err)` by restify: the error status code and message
become the response. -/
def errResp (e : HErr) : HttpResp :=
  { status := e.statusCode, body := .err e.message }

/-- The restify request object fields the pivtoken chain reads and writes:
`params.guid`, `params` as token fields (create body), `params.token`
(recover body), and the `pivtoken`/`rawToken` slots the preload handler
fills. -/
structure PivReq where
  guid : Option String := none
  body : Option PivToken := none
  bodyToken : Option PivToken := none
  pivtoken : Option PivTokenPublic := none
  rawToken : Option PivToken := none
deriving DecidableEq

/-- Outcome of one restify middleware step: continue with the (possibly
updated) request, or halt with a response (res.send or next(err)). -/
inductive MwStep where
  | next (r : PivReq)
  | halt (r : HttpResp)
deriving DecidableEq

/-- `preloadPivtoken` from src/lib/endpoints/pivtokens.js: look up
`req.params.guid || req.params.token.guid`; a 404 from the model layer is
swallowed (the chain continues without a loaded token), any other error is
passed to next, and on success the serialized and raw token are attached to
the request.  Reading the GUID off an absent `params.token` would throw in
JS, modelled as a halt with a 500 response. -/
def preloadPivtoken (live : List PivToken) (storeErr : Option HErr) (req : PivReq) :
    MwStep :=
  let g := match req.guid with
    | some g => some g
    | none => req.bodyToken.map PivToken.guid
  match g with
  | none => .halt { status := 500, body := .err "TypeError" }
  | some g =>
    match modGetPin live storeErr g with
    | .error e =>
        if e.statusCode = 404 then .next req else .halt (errResp e)
    | .ok t => .next { req with pivtoken := some t.serialize, rawToken := some t }

/-- Modelled from the spec: `mod_auth.signatureAuth` (lib/auth.js is not
among the analyzed sources) verifies the request credentials against the
loaded token - the HTTP signature against the stored 9E public key, or, for
the recover action, the HMAC against the stored recovery token; `verify`
is that verification outcome.  Per the spec both schemes fail closed with a
response indistinguishable from "resource not found", and a request with no
loaded token proceeds (the handlers themselves answer 404, and creation of
an unseen GUID is allowed without authentication). -/
def signatureAuth (verify : PivToken → Bool) (req : PivReq) : MwStep :=
  match req.rawToken with
  | none => .next req
  | some t =>
      if verify t then .next req
      else .halt { status := 404, body := .err "pivtoken not found" }

/-- Modelled from the spec: HMAC verification for the recover action
recomputes the HMAC with the stored `recovery_token` as key and compares;
`presented` stands for the verifier recomputation on the caller
credentials, so verification succeeds exactly when the caller used the
stored secret. -/
def hmacVerify (presented : String) (t : PivToken) : Bool :=
  presented == t.recovery_token

/-- `getPivtokenPin` from src/lib/endpoints/pivtokens.js. -/
def getPivtokenPin (req : PivReq) : HttpResp :=
  match req.pivtoken with
  | none => { status := 404, body := .err "pivtoken not found" }
  | some t => { status := 200, body := .pub t }

/-- `createPivtoken` from src/lib/endpoints/pivtokens.js: when a token was
preloaded the existing serialized view is returned with 200 and no store
operation runs; otherwise the model create runs on the request params and
answers 201 with the new serialization (a missing body is a validation
failure, modelled from the spec as a 422). -/
def createPivtoken (st : PivStore) (createErr : Option HErr) (req : PivReq) :
    HttpResp × PivStore :=
  match req.pivtoken with
  | some t => ({ status := 200, body := .pub t }, st)
  | none =>
    match req.body with
    | none => (errResp { statusCode := 422, message := "ValidationError" }, st)
    | some params =>
      match modPivtokenCreate st params createErr with
      | .error e => (errResp e, st)
      | .ok (tok, st2) => ({ status := 201, body := .pub tok.serialize }, st2)

/-- `deletePivtoken` from src/lib/endpoints/pivtokens.js: 404 when no token
was preloaded, otherwise archive-then-delete of the raw token, answering
204 on success and passing the first error to next.  A request with the
serialized but not the raw token set cannot arise from the chain; the
assertion inside archiveAndDeletePivtoken would throw, modelled as 500. -/
def deletePivtoken (st : PivStore) (histErr delErr : Option HErr) (req : PivReq) :
    HttpResp × PivStore :=
  match req.pivtoken with
  | none => ({ status := 404, body := .err "pivtoken not found" }, st)
  | some _ =>
    match req.rawToken with
    | none => ({ status := 500, body := .err "AssertionError" }, st)
    | some raw =>
      match archiveAndDeletePivtoken st raw histErr delErr with
      | (some e, st2) => (errResp e, st2)
      | (none, st2) => ({ status := 204, body := .empty }, st2)

/-- `recoveryPivtoken` from src/lib/endpoints/pivtokens.js: 404 when no
token was preloaded; otherwise archive-then-delete of the old raw token,
then creation of the replacement from `req.params.token`, answering 201
with the new serialization; the first error is passed to next. -/
def recoveryPivtoken (st : PivStore) (histErr delErr createErr : Option HErr)
    (req : PivReq) : HttpResp × PivStore :=
  match req.pivtoken with
  | none => ({ status := 404, body := .err "pivtoken not found" }, st)
  | some _ =>
    match req.rawToken with
    | none => ({ status := 500, body := .err "AssertionError" }, st)
    | some raw =>
      match archiveAndDeletePivtoken st raw histErr delErr with
      | (some e, st1) => (errResp e, st1)
      | (none, st1) =>
        match req.bodyToken with
        | none => (errResp { statusCode := 422, message := "ValidationError" }, st1)
        | some params =>
          match modPivtokenCreate st1 params createErr with
          | .error e => (errResp e, st1)
          | .ok (tok, st2) => ({ status := 201, body := .pub tok.serialize }, st2)

/-- The GET /pivtokens/:guid/pin chain registered by `registerEndpoints`:
preloadPivtoken, signatureAuth, getPivtokenPin. -/
def pinRoute (st : PivStore) (storeErr : Option HErr) (verify : PivToken → Bool)
    (req : PivReq) : HttpResp :=
  match preloadPivtoken st.live storeErr req with
  | .halt r => r
  | .next r1 =>
    match signatureAuth verify r1 with
    | .halt r => r
    | .next r2 => getPivtokenPin r2

/-- The POST /pivtokens chain: preloadPivtoken, signatureAuth,
createPivtoken. -/
def createRoute (st : PivStore) (storeErr : Option HErr) (verify : PivToken → Bool)
    (createErr : Option HErr) (req : PivReq) : HttpResp × PivStore :=
  match preloadPivtoken st.live storeErr req with
  | .halt r => (r, st)
  | .next r1 =>
    match signatureAuth verify r1 with
    | .halt r => (r, st)
    | .next r2 => createPivtoken st createErr r2

/-- The DELETE /pivtokens/:guid chain: preloadPivtoken, signatureAuth,
deletePivtoken. -/
def deleteRoute (st : PivStore) (storeErr : Option HErr) (verify : PivToken → Bool)
    (histErr delErr : Option HErr) (req : PivReq) : HttpResp × PivStore :=
  match preloadPivtoken st.live storeErr req with
  | .halt r => (r, st)
  | .next r1 =>
    match signatureAuth verify r1 with
    | .halt r => (r, st)
    | .next r2 => deletePivtoken st histErr delErr r2

/-- The POST /pivtokens/:guid/recover chain: preloadPivtoken, signatureAuth
(instantiated with the HMAC verification of the recover action),
recoveryPivtoken. -/
def recoverRoute (st : PivStore) (storeErr : Option HErr) (verify : PivToken → Bool)
    (histErr delErr createErr : Option HErr) (req : PivReq) : HttpResp × PivStore :=
  match preloadPivtoken st.live storeErr req with
  | .halt r => (r, st)
  | .next r1 =>
    match signatureAuth verify r1 with
    | .halt r => (r, st)
    | .next r2 => recoveryPivtoken st histErr delErr createErr r2

/-- Names of the routes registered by `registerEndpoints` in
src/lib/endpoints/pivtokens.js. -/
inductive RouteName where
  | listtokens
  | createtoken
  | gettoken
  | deltoken
  | gettokenpin
  | recoverytoken
deriving DecidableEq

/-- The authentication scheme effectively guarding a route. -/
inductive AuthScheme where
  | noAuth
  | signature
  | hmacRecovery
deriving DecidableEq

/-- Modelled from the spec: the scheme `mod_auth.signatureAuth` (lib/auth.js
is not among the analyzed sources) applies on each registered route - the
unauthenticated list/get routes carry no auth middleware at all, the
authenticated routes verify the HTTP signature, and the recover action
alone uses the HMAC/recovery-token scheme. -/
def routeAuthScheme : RouteName → AuthScheme
  | .listtokens => .noAuth
  | .createtoken => .signature
  | .gettoken => .noAuth
  | .deltoken => .signature
  | .gettokenpin => .signature
  | .recoverytoken => .hmacRecovery

/-- The serialized recovery configuration attached to the request by the
preload handler (opaque for the update handler, which only tests its
presence). -/
structure RecCfgPub where
  uuid : String
deriving DecidableEq

/-- Truthiness of an optional JS string parameter (absent or empty is
falsy). -/
def truthyS : Option String → Bool
  | some s => s != ""
  | none => false

/-- Truthiness of an optional JS numeric parameter (absent or zero is
falsy). -/
def truthyN : Option Nat → Bool
  | some n => n != 0
  | none => false

/-- The request fields read by `updateRecoveryConfiguration`. -/
structure RecCfgReq where
  uuid : String
  action : Option String := none
  force : Bool := false
  pivtoken : Option String := none
  cn_uuid : Option String := none
  concurrency : Option Nat := none
  targets : Option (List String) := none
  recoveryConfig : Option RecCfgPub := none
deriving DecidableEq

/-- The parameter object handed to the transition engine by
`updateRecoveryConfiguration`. -/
structure TrParams where
  uuid : String
  force : Bool := false
  pivtoken : Option String := none
  concurrency : Option Nat := none
deriving DecidableEq

/-- The `trParams` object built by `updateRecoveryConfiguration`: uuid
always, then force, pivtoken and concurrency only when the request carries
truthy values for them. -/
def buildTrParams (req : RecCfgReq) : TrParams :=
  let p : TrParams := { uuid := req.uuid }
  let p := if req.force then { p with force := true } else p
  let p := if truthyS req.pivtoken then { p with pivtoken := req.pivtoken } else p
  let p := if truthyN req.concurrency then { p with concurrency := req.concurrency } else p
  p

/-- The rewrite of `req.params.targets` done before calling the transition
engine: a truthy `cn_uuid` replaces the targets with the one-element list
holding it. -/
def updatedTargets (req : RecCfgReq) : Option (List String) :=
  match req.cn_uuid with
  | some c => if c != "" then some [c] else req.targets
  | none => req.targets

/-- The raw transition record as the handler reads it
(`trRes.transition.raw()`), of which only `name` is used. -/
structure TransitionRaw where
  name : String
deriving DecidableEq

/-- The result object the transition engine passes to the handler callback:
an optional transition record. -/
structure TrRes where
  transition : Option TransitionRaw
deriving DecidableEq

/-- Observable outcome of `updateRecoveryConfiguration`: a sent response
with status and optional Location header, an error passed to next, or a
thrown JS error (reading `transition` off an absent result). -/
inductive RecCfgOut where
  | sent (status : Nat) (location : Option String)
  | failed (e : HErr)
  | jsError (msg : String)
deriving DecidableEq

/-- The Location header value set when the transition record carries a
truthy name. -/
def transitionLocation (req : RecCfgReq) (r : TrRes) : Option String :=
  match r.transition with
  | some t =>
      if t.name != "" then
        some ("/recovery-configurations/" ++ req.uuid ++ "?action=watch&transition=" ++ t.name)
      else none
  | none => none

/-- `updateRecoveryConfiguration` from the recovery-configurations
endpoints file: 404 when no configuration was preloaded, a missing-parameter
error (restify status 409) when the action parameter is falsy; otherwise the
transition engine is called with the built parameters and its callback
outcome `(trErr, trRes)` decides playback: an error without a result goes to
next, a result sets the Location header when the transition record has a
truthy name and the response status is 200 when the callback also reported
an error, 204 otherwise. -/
def updateRecoveryConfiguration (req : RecCfgReq) (trErr : Option HErr)
    (trRes : Option TrRes) : RecCfgOut :=
  match req.recoveryConfig with
  | none => .failed { statusCode := 404, message := "recovery configuration not found" }
  | some _ =>
    if truthyS req.action = false then
      .failed { statusCode := 409,
                message := "A value for the action parameter must be provided" }
    else
      match trErr, trRes with
      | some e, none => .failed e
      | _, some r =>
          .sent (if trErr.isSome then 200 else 204) (transitionLocation req r)
      | none, none => .jsError "TypeError: cannot read transition of undefined"

theorem getKey_setKey_self (o : JObj) (k : String) (v : JVal) :
    getKey (setKey o k v) k = some v := by
  induction o with
  | nil => simp [setKey, getKey]
  | cons kv rest ih =>
    obtain ⟨k2, v2⟩ := kv
    by_cases h : k2 = k <;> simp [setKey, getKey, h, ih]

theorem getKey_setKey_ne (o : JObj) (k k2 : String) (v : JVal) (h : k2 ≠ k) :
    getKey (setKey o k v) k2 = getKey o k2 := by
  induction o with
  | nil =>
    have h2 : ¬ k = k2 := fun e => h e.symm
    simp [setKey, getKey, h2]
  | cons kv rest ih =>
    obtain ⟨k3, v3⟩ := kv
    by_cases h3 : k3 = k <;> by_cases h2 : k3 = k2 <;>
      simp_all [setKey, getKey]

theorem getKey_eraseKey_self (o : JObj) (k : String) :
    getKey (eraseKey o k) k = none := by
  induction o with
  | nil => rfl
  | cons kv rest ih =>
    obtain ⟨k2, v2⟩ := kv
    by_cases h : k2 = k <;> simp_all [eraseKey, getKey]

theorem getKey_eraseKey_ne (o : JObj) (k k2 : String) (h : k2 ≠ k) :
    getKey (eraseKey o k) k2 = getKey o k2 := by
  induction o with
  | nil => rfl
  | cons kv rest ih =>
    obtain ⟨k3, v3⟩ := kv
    by_cases h3 : k3 = k <;> by_cases h2 : k3 = k2 <;>
      simp_all [eraseKey, getKey]

theorem jsSplitChar_of_not_mem (sep : Char) (s : List Char) (h : sep ∉ s) :
    jsSplitChar sep s = [s] := by
  induction s with
  | nil => rfl
  | cons c rest ih =>
    have hc : c ≠ sep := fun e => h (e ▸ List.mem_cons_self c rest)
    have hr : sep ∉ rest := fun m => h (List.mem_cons_of_mem c m)
    simp [jsSplitChar, hc, ih hr]

theorem jsSplitChar_append_sep (sep : Char) (x t : List Char) (h : sep ∉ x) :
    jsSplitChar sep (x ++ sep :: t) = x :: jsSplitChar sep t := by
  induction x with
  | nil => simp [jsSplitChar]
  | cons c x2 ih =>
    have hc : c ≠ sep := fun e => h (e ▸ List.mem_cons_self c x2)
    have hx : sep ∉ x2 := fun m => h (List.mem_cons_of_mem c m)
    simp [jsSplitChar, hc, ih hx]

theorem jsSplit_jsJoin (sep : Char) (l : List (List Char)) (hne : l ≠ [])
    (h : ∀ x ∈ l, sep ∉ x) :
    jsSplitChar sep (jsJoinChar sep l) = l := by
  induction l with
  | nil => exact absurd rfl hne
  | cons x rest ih =>
    cases rest with
    | nil => simpa [jsJoinChar] using jsSplitChar_of_not_mem sep x (h x (by simp))
    | cons y ys =>
      have hx : sep ∉ x := h x (by simp)
      rw [show jsJoinChar sep (x :: y :: ys) = x ++ sep :: jsJoinChar sep (y :: ys) from rfl]
      rw [jsSplitChar_append_sep sep x _ hx]
      rw [ih (by simp) (fun z hz => h z (by simp [hz]))]

/-- Sample token used to instantiate witnesses. -/
def tokWa : PivToken :=
  { guid := "guidA", cn_uuid := "cnA", pin := "1234", pubkeys := "pkA",
    recovery_token := "rtA" }

/-- Second sample token used to instantiate witnesses. -/
def tokWb : PivToken :=
  { guid := "guidB", cn_uuid := "cnB", pin := "5678", pubkeys := "pkB",
    recovery_token := "rtB" }

/-- Claim C1: archiveAndDeletePivtoken writes a history record from the raw
token before deleting the live pivtoken; a history-creation failure is
handed to the callback and the delete is never attempted (the state is
untouched); a delete failure after a successful archive leaves the written
history record in place. -/
theorem C1_archive_then_delete (st : PivStore) (tok : PivToken)
    (histErr delErr : Option HErr) :
    (∀ e, histErr = some e →
      archiveAndDeletePivtoken st tok histErr delErr = (some e, st))
    ∧ (histErr = none →
      (archiveAndDeletePivtoken st tok histErr delErr).2.hist = st.hist ++ [tok])
    ∧ (∀ e, histErr = none → delErr = some e →
      archiveAndDeletePivtoken st tok histErr delErr =
        (some e, { live := st.live, hist := st.hist ++ [tok] }))
    ∧ (histErr = none → delErr = none →
      archiveAndDeletePivtoken st tok histErr delErr =
        (none, { live := st.live.filter (fun u => u.guid != tok.guid),
                 hist := st.hist ++ [tok] })) := by
  refine ⟨?_, ?_, ?_, ?_⟩
  · intro e he
    subst he
    simp [archiveAndDeletePivtoken, modHistoryCreate]
  · intro he
    subst he
    cases delErr <;> simp [archiveAndDeletePivtoken, modHistoryCreate, modPivtokenDel]
  · intro e he hd
    subst he; subst hd
    simp [archiveAndDeletePivtoken, modHistoryCreate, modPivtokenDel]
  · intro he hd
    subst he; subst hd
    simp [archiveAndDeletePivtoken, modHistoryCreate, modPivtokenDel]

/-- Witness for C1 at a concrete store, token and outcome pair. -/
theorem C1_archive_then_delete_witness :
    (none : Option HErr) = none ∧
    archiveAndDeletePivtoken { live := [tokWa], hist := [] } tokWa none none =
      (none, { live := List.filter (fun u => u.guid != tokWa.guid) [tokWa],
               hist := [] ++ [tokWa] }) :=
  ⟨rfl, (C1_archive_then_delete { live := [tokWa], hist := [] } tokWa none none).2.2.2
    rfl rfl⟩

/-- Claim C2: a POST /pivtokens whose GUID matches an existing pivtoken
(preloaded onto the request) answers 200 with the existing record public
serialization and leaves the store untouched (no write, no duplicate, no
error); only when no token with that GUID exists is one created, with a 201
response. -/
theorem C2_create_idempotent (st : PivStore) (vfy : PivToken → Bool)
    (reqE reqN : PivReq) (gE gN : String) (tokE newTok : PivToken) :
    (findByGuid st.live gE = some tokE → reqE.guid = some gE → vfy tokE = true →
      createRoute st none vfy none reqE =
        ({ status := 200, body := .pub tokE.serialize }, st))
    ∧ (findByGuid st.live gN = none → reqN.guid = some gN → reqN.pivtoken = none →
      reqN.rawToken = none → reqN.body = some newTok → newTok.guid = gN →
      createRoute st none vfy none reqN =
        ({ status := 201, body := .pub newTok.serialize },
         { st with live := st.live ++ [newTok] })) := by
  constructor
  · intro hfound hg hv
    simp [createRoute, preloadPivtoken, modGetPin, hg, hfound, signatureAuth, hv,
      createPivtoken]
  · intro hnone hg hp hr hb hng
    simp [createRoute, preloadPivtoken, modGetPin, hg, hnone, signatureAuth, hr,
      createPivtoken, hp, hb, modPivtokenCreate, hng]

/-- Witness for C2 with a one-token store: retrying the existing GUID
answers 200 without a write, an unseen GUID creates with 201. -/
theorem C2_create_idempotent_witness :
    findByGuid [tokWa] "guidA" = some tokWa ∧
    findByGuid [tokWa] "guidB" = none ∧
    (createRoute { live := [tokWa], hist := [] } none (fun _ => true) none
        { guid := some "guidA" } =
      ({ status := 200, body := .pub tokWa.serialize }, { live := [tokWa], hist := [] }))
    ∧ (createRoute { live := [tokWa], hist := [] } none (fun _ => true) none
        { guid := some "guidB", body := some tokWb } =
      ({ status := 201, body := .pub tokWb.serialize },
       { live := [tokWa] ++ [tokWb], hist := [] })) := by
  refine ⟨by decide, by decide, ?_, ?_⟩
  · exact (C2_create_idempotent { live := [tokWa], hist := [] } (fun _ => true)
      { guid := some "guidA" } { guid := some "guidB", body := some tokWb }
      "guidA" "guidB" tokWa tokWb).1 (by decide) rfl rfl
  · exact (C2_create_idempotent { live := [tokWa], hist := [] } (fun _ => true)
      { guid := some "guidA" } { guid := some "guidB", body := some tokWb }
      "guidA" "guidB" tokWa tokWb).2 (by decide) rfl rfl rfl rfl (by decide)

/-- Claim C3: on the authenticated pivtoken routes (pin retrieval, deletion,
recovery) a request failing credential verification against an existing
token and a request naming a GUID with no stored token receive the same 404
response with the same body, and neither mutates the store. -/
theorem C3_auth_indistinguishable (st : PivStore) (vfy : PivToken → Bool)
    (reqA reqB : PivReq) (gA gB : String) (tokX : PivToken)
    (hAfound : findByGuid st.live gA = some tokX) (hAv : vfy tokX = false)
    (hAg : reqA.guid = some gA)
    (hBnone : findByGuid st.live gB = none)
    (hBg : reqB.guid = some gB) (hBp : reqB.pivtoken = none)
    (hBr : reqB.rawToken = none) :
    (pinRoute st none vfy reqA = pinRoute st none vfy reqB
      ∧ pinRoute st none vfy reqA = { status := 404, body := .err "pivtoken not found" })
    ∧ (∀ he hd, deleteRoute st none vfy he hd reqA = deleteRoute st none vfy he hd reqB
      ∧ deleteRoute st none vfy he hd reqA =
          ({ status := 404, body := .err "pivtoken not found" }, st))
    ∧ (∀ he hd hc,
        recoverRoute st none vfy he hd hc reqA = recoverRoute st none vfy he hd hc reqB
      ∧ recoverRoute st none vfy he hd hc reqA =
          ({ status := 404, body := .err "pivtoken not found" }, st)) := by
  refine ⟨⟨?_, ?_⟩, ?_, ?_⟩
  · simp [pinRoute, preloadPivtoken, modGetPin, hAg, hAfound, signatureAuth, hAv,
      hBg, hBnone, hBp, hBr, getPivtokenPin]
  · simp [pinRoute, preloadPivtoken, modGetPin, hAg, hAfound, signatureAuth, hAv]
  · intro he hd
    constructor
    · simp [deleteRoute, preloadPivtoken, modGetPin, hAg, hAfound, signatureAuth, hAv,
        hBg, hBnone, hBp, hBr, deletePivtoken]
    · simp [deleteRoute, preloadPivtoken, modGetPin, hAg, hAfound, signatureAuth, hAv]
  · intro he hd hc
    constructor
    · simp [recoverRoute, preloadPivtoken, modGetPin, hAg, hAfound, signatureAuth, hAv,
        hBg, hBnone, hBp, hBr, recoveryPivtoken]
    · simp [recoverRoute, preloadPivtoken, modGetPin, hAg, hAfound, signatureAuth, hAv]

/-- Pivtoken store used by the route witnesses. -/
def pivStoreW : PivStore := { live := [tokWa], hist := [] }

/-- Request for the stored GUID used by the C3 witness. -/
def reqKnownW : PivReq := { guid := some "guidA" }

/-- Request for an unknown GUID used by the C3 witness. -/
def reqUnknownW : PivReq := { guid := some "guidB" }

/-- Witness for C3: a store holding one token, a verifier rejecting
everything, one request for the stored GUID and one for an unknown GUID,
on all three authenticated routes. -/
theorem C3_auth_indistinguishable_witness :
    (pinRoute pivStoreW none (fun _ => false) reqKnownW
        = pinRoute pivStoreW none (fun _ => false) reqUnknownW
      ∧ pinRoute pivStoreW none (fun _ => false) reqKnownW
        = { status := 404, body := .err "pivtoken not found" })
    ∧ (deleteRoute pivStoreW none (fun _ => false) none none reqKnownW
        = deleteRoute pivStoreW none (fun _ => false) none none reqUnknownW
      ∧ deleteRoute pivStoreW none (fun _ => false) none none reqKnownW
        = ({ status := 404, body := .err "pivtoken not found" }, pivStoreW))
    ∧ (recoverRoute pivStoreW none (fun _ => false) none none none reqKnownW
        = recoverRoute pivStoreW none (fun _ => false) none none none reqUnknownW
      ∧ recoverRoute pivStoreW none (fun _ => false) none none none reqKnownW
        = ({ status := 404, body := .err "pivtoken not found" }, pivStoreW)) :=
  ⟨(C3_auth_indistinguishable pivStoreW (fun _ => false) reqKnownW reqUnknownW
      "guidA" "guidB" tokWa (by decide) rfl rfl (by decide) rfl rfl rfl).1,
   (C3_auth_indistinguishable pivStoreW (fun _ => false) reqKnownW reqUnknownW
      "guidA" "guidB" tokWa (by decide) rfl rfl (by decide) rfl rfl rfl).2.1 none none,
   (C3_auth_indistinguishable pivStoreW (fun _ => false) reqKnownW reqUnknownW
      "guidA" "guidB" tokWa (by decide) rfl rfl (by decide) rfl rfl rfl).2.2
      none none none⟩

/-- Claim C8: the recover route authenticates with the HMAC scheme keyed by
the stored recovery token (the only route using that scheme), and on
success archives then deletes the old pivtoken record, creates the
replacement from the request body token and answers 201 with its
serialization. -/
theorem C8_recover_flow (st : PivStore) (req : PivReq) (g presented : String)
    (tok newTok : PivToken)
    (hfound : findByGuid st.live g = some tok)
    (hg : req.guid = some g)
    (hbody : req.bodyToken = some newTok)
    (hhmac : presented = tok.recovery_token)
    (hnew : findByGuid (st.live.filter (fun u => u.guid != tok.guid)) newTok.guid = none) :
    recoverRoute st none (hmacVerify presented) none none none req =
      ({ status := 201, body := .pub newTok.serialize },
       { live := st.live.filter (fun u => u.guid != tok.guid) ++ [newTok],
         hist := st.hist ++ [tok] })
    ∧ routeAuthScheme .recoverytoken = .hmacRecovery
    ∧ (∀ r, routeAuthScheme r = .hmacRecovery → r = .recoverytoken) := by
  refine ⟨?_, rfl, ?_⟩
  · simp [recoverRoute, preloadPivtoken, modGetPin, hg, hfound, signatureAuth,
      hmacVerify, hhmac, recoveryPivtoken, archiveAndDeletePivtoken,
      modHistoryCreate, modPivtokenDel, hbody, modPivtokenCreate, hnew]
  · intro r hr
    cases r <;> simp_all [routeAuthScheme]

/-- Witness for C8: recovering the stored token with its recovery secret
and a fresh replacement token. -/
theorem C8_recover_flow_witness :
    recoverRoute { live := [tokWa], hist := [] } none (hmacVerify "rtA") none none none
      { guid := some "guidA", bodyToken := some tokWb } =
      ({ status := 201, body := .pub tokWb.serialize },
       { live := List.filter (fun u => u.guid != tokWa.guid) [tokWa] ++ [tokWb],
         hist := [] ++ [tokWa] })
    ∧ routeAuthScheme .recoverytoken = .hmacRecovery :=
  ⟨(C8_recover_flow { live := [tokWa], hist := [] }
      { guid := some "guidA", bodyToken := some tokWb } "guidA" "rtA" tokWa tokWb
      (by decide) rfl rfl (by decide) (by decide)).1,
   (C8_recover_flow { live := [tokWa], hist := [] }
      { guid := some "guidA", bodyToken := some tokWb } "guidA" "rtA" tokWa tokWb
      (by decide) rfl rfl (by decide) (by decide)).2.1⟩

theorem foldl_filterStep (bucket : Option BucketCfg) (o : JObj) (acc : List String) :
    o.foldl (filterStep bucket) acc = acc ++ predList bucket o := by
  induction o generalizing acc with
  | nil => simp [predList]
  | cons kv rest ih =>
    cases hk : keyIndexed bucket kv.1 <;>
      simp [filterStep, predList, hk, ih, List.append_assoc]

theorem predList_restrict (b : BucketCfg) (o : JObj) :
    predList (some b) (o.filter (fun kv => keyIndexed (some b) kv.1))
      = predList (some b) o := by
  induction o with
  | nil => rfl
  | cons kv rest ih =>
    cases hk : keyIndexed (some b) kv.1 <;>
      simp [predList, hk, ih, List.filter_cons]

theorem getKey_filter_none (o : JObj) (p : String × JVal → Bool) (k : String)
    (h : getKey o k = none) : getKey (o.filter p) k = none := by
  induction o with
  | nil => rfl
  | cons kv rest ih =>
    obtain ⟨k2, v2⟩ := kv
    by_cases hk : k2 = k
    · simp [getKey, hk] at h
    · have h2 : getKey rest k = none := by simpa [getKey, hk] using h
      cases hp : p (k2, v2) <;> simp [List.filter_cons, hp, getKey, hk, ih h2]

/-- Claim C5: for a plain parameter object (no raw filter string and no
filter property) the LDAP filter built by ldapFilter only contains
predicates for keys of the bucket indexed-field schema - dropping the keys
that fail the indexed-key guard does not change the built filter. -/
theorem C5_indexed_fields_only (o : JObj) (b : BucketCfg)
    (hf : getKey o "filter" = none) :
    ldapFilter (.obj o) (some b) =
      ldapFilter (.obj (o.filter (fun kv => keyIndexed (some b) kv.1))) (some b) := by
  by_cases ho : o = []
  · subst ho; rfl
  · by_cases hr : o.filter (fun kv => keyIndexed (some b) kv.1) = []
    · have hp : predList (some b) o = [] := by
        rw [← predList_restrict b o, hr]; rfl
      simp only [ldapFilter, ho, if_false, hf, foldl_filterStep, hp, hr, if_true]
      rfl
    · have hf2 :
          getKey (o.filter (fun kv => keyIndexed (some b) kv.1)) "filter" = none :=
        getKey_filter_none o _ "filter" hf
      simp [ldapFilter, ho, hr, hf, hf2, foldl_filterStep, predList_restrict]

/-- Versioned bucket configuration used by the initBucket witness. -/
def bucketVW : BucketCfg :=
  { name := "kbmapi_recovery_configs", desc := "recovery configurations",
    schema := { index := ["uuid"] }, version := some 2 }

/-- Bucket configuration used by the list-filter witnesses. -/
def bucketW : BucketCfg :=
  { name := "kbmapi_pivtokens", desc := "pivtokens", schema := { index := ["guid"] } }

/-- Witness for C5: a parameter object with one indexed and one non-indexed
key builds the same filter as its restriction to the indexed key. -/
theorem C5_indexed_fields_only_witness :
    getKey [("guid", JVal.vstr "g1"), ("pin", JVal.vstr "p1")] "filter" = none
    ∧ ldapFilter (.obj [("guid", JVal.vstr "g1"), ("pin", JVal.vstr "p1")])
        (some bucketW) =
      ldapFilter (.obj (([("guid", JVal.vstr "g1"), ("pin", JVal.vstr "p1")] : JObj).filter
        (fun kv => keyIndexed (some bucketW) kv.1))) (some bucketW) :=
  ⟨by decide, C5_indexed_fields_only [("guid", JVal.vstr "g1"), ("pin", JVal.vstr "p1")]
    bucketW (by decide)⟩

/-- Claim C9: ldapFilter returns string inputs unchanged, and returns the
filter property of an object input verbatim whatever the type of that
property value (the type guard in the source is vacuous), so the
indexed-fields restriction only applies to plain parameter objects. -/
theorem C9_filter_bypass (s : String) (b : Option BucketCfg) (o : JObj) (v : JVal)
    (ho : o ≠ []) (hv : getKey o "filter" = some v) :
    ldapFilter (.str s) b = JVal.vstr s ∧ ldapFilter (.obj o) b = v :=
  ⟨rfl, by simp [ldapFilter, ho, hv]⟩

/-- Witness for C9: a raw string passes through, and a numeric (non-string)
filter property is returned verbatim. -/
theorem C9_filter_bypass_witness :
    ([("filter", JVal.vnum 5)] : JObj) ≠ []
    ∧ getKey [("filter", JVal.vnum 5)] "filter" = some (JVal.vnum 5)
    ∧ (ldapFilter (.str "(guid=abc)") none = JVal.vstr "(guid=abc)"
      ∧ ldapFilter (.obj [("filter", JVal.vnum 5)]) none = JVal.vnum 5) :=
  ⟨by decide, by decide,
    C9_filter_bypass "(guid=abc)" none [("filter", JVal.vnum 5)] (JVal.vnum 5)
      (by decide) (by decide)⟩

/-- Claim C6: initBucket is idempotent - an existing bucket yields a
callback with no error and no creation; a not-found outcome creates the
bucket with the schema extended with the declared version (when one is
declared, the schema is passed unchanged otherwise) and propagates any
creation error; any other get error is propagated and nothing is
created. -/
theorem C6_initBucket_idempotent (pfx : String) (bucket : BucketCfg)
    (getRes : GetBucketRes) (createErr : Option HErr) :
    (getRes = .found →
      (initBucket pfx bucket getRes createErr).err = none
      ∧ (initBucket pfx bucket getRes createErr).created = none)
    ∧ (∀ e, getRes = .err e →
      (initBucket pfx bucket getRes createErr).err = some e
      ∧ (initBucket pfx bucket getRes createErr).created = none)
    ∧ (getRes = .notFound →
      (initBucket pfx bucket getRes createErr).err = createErr)
    ∧ (∀ v, getRes = .notFound → bucket.version = some v →
      (initBucket pfx bucket getRes createErr).created =
        some ((initBucket pfx bucket getRes createErr).bucket.name,
              { bucket.schema with optionsVersion := some v }))
    ∧ (getRes = .notFound → bucket.version = none →
      (initBucket pfx bucket getRes createErr).created =
        some ((initBucket pfx bucket getRes createErr).bucket.name, bucket.schema)) := by
  refine ⟨?_, ?_, ?_, ?_, ?_⟩
  · intro h; subst h
    by_cases h1 : pfx = "" <;> cases h2 : bucket.name_prefixed <;>
      simp [initBucket, h1, h2]
  · intro e h; subst h
    by_cases h1 : pfx = "" <;> cases h2 : bucket.name_prefixed <;>
      simp [initBucket, h1, h2]
  · intro h; subst h
    by_cases h1 : pfx = "" <;> cases h2 : bucket.name_prefixed <;>
      simp [initBucket, h1, h2]
  · intro v h hv; subst h
    by_cases h1 : pfx = "" <;> cases h2 : bucket.name_prefixed <;>
      simp [initBucket, h1, h2, hv]
  · intro h hv; subst h
    by_cases h1 : pfx = "" <;> cases h2 : bucket.name_prefixed <;>
      simp [initBucket, h1, h2, hv]

/-- Witness for C6: a bucket with a declared version, created on a
not-found outcome with the version copied into the schema options. -/
theorem C6_initBucket_idempotent_witness :
    (GetBucketRes.notFound = .notFound ∧ bucketVW.version = some 2)
    ∧ (initBucket "" bucketVW .notFound none).created =
        some ((initBucket "" bucketVW .notFound none).bucket.name,
              { bucketVW.schema with optionsVersion := some 2 }) :=
  ⟨⟨rfl, rfl⟩,
    ((C6_initBucket_idempotent "" bucketVW .notFound none).2.2.2.1 2 rfl rfl)⟩

/-- Claim C7: on an existing recovery configuration with a truthy action
parameter, a transition callback with no error sends 204, setting the
Location header of the watch form when the transition record has a truthy
name, and a callback error that comes with a result object sends 200. -/
theorem C7_update_response (req : RecCfgReq) (cfg : RecCfgPub) (a : String)
    (r : TrRes) (t : TransitionRaw) (e : HErr)
    (hc : req.recoveryConfig = some cfg) (ha : req.action = some a) (hne : a ≠ "") :
    updateRecoveryConfiguration req none (some r) =
      .sent 204 (transitionLocation req r)
    ∧ (r.transition = some t → t.name ≠ "" →
        transitionLocation req r =
          some ("/recovery-configurations/" ++ req.uuid ++ "?action=watch&transition="
            ++ t.name))
    ∧ updateRecoveryConfiguration req (some e) (some r) =
        .sent 200 (transitionLocation req r) := by
  have hta : truthyS req.action = true := by simp [truthyS, ha, hne]
  refine ⟨?_, ?_, ?_⟩
  · simp [updateRecoveryConfiguration, hc, hta]
  · intro ht hn
    simp [transitionLocation, ht, hn]
  · simp [updateRecoveryConfiguration, hc, hta]

/-- Request used by the C7 witness. -/
def recReqW : RecCfgReq :=
  { uuid := "u1", action := some "activate", recoveryConfig := some { uuid := "u1" } }

/-- Transition callback result used by the C7 witness. -/
def trResW : TrRes := { transition := some { name := "activate" } }

/-- Witness for C7 at a concrete request and transition outcome. -/
theorem C7_update_response_witness :
    updateRecoveryConfiguration recReqW none (some trResW) =
      .sent 204 (transitionLocation recReqW trResW)
    ∧ transitionLocation recReqW trResW =
        some ("/recovery-configurations/" ++ "u1" ++ "?action=watch&transition="
          ++ "activate")
    ∧ updateRecoveryConfiguration recReqW
        (some { statusCode := 500, message := "partial" }) (some trResW) =
      .sent 200 (transitionLocation recReqW trResW) :=
  ⟨(C7_update_response recReqW { uuid := "u1" } "activate" trResW
      { name := "activate" } { statusCode := 500, message := "partial" }
      rfl rfl (by decide)).1,
   (C7_update_response recReqW { uuid := "u1" } "activate" trResW
      { name := "activate" } { statusCode := 500, message := "partial" }
      rfl rfl (by decide)).2.1 rfl (by decide),
   (C7_update_response recReqW { uuid := "u1" } "activate" trResW
      { name := "activate" } { statusCode := 500, message := "partial" }
      rfl rfl (by decide)).2.2⟩

theorem getKey_updateObjValue_not_mem (o val : JObj) (rmv : Bool) (k : String)
    (h : k ∉ val.map Prod.fst) :
    getKey (updateObjValue o val rmv) k = getKey o k := by
  induction val generalizing o with
  | nil => rfl
  | cons kv rest ih =>
    have hk : kv.1 ≠ k := fun e => h (by simp [e.symm])  
    have hr : k ∉ rest.map Prod.fst := fun m => h (by simp [m])
    cases rmv with
    | false =>
      have step : updateObjValue o (kv :: rest) false
          = updateObjValue (setKey o kv.1 kv.2) rest false := rfl
      rw [step, ih _ hr, getKey_setKey_ne o kv.1 k kv.2 (fun e => hk e.symm)]
    | true =>
      have step : updateObjValue o (kv :: rest) true
          = updateObjValue (eraseKey o kv.1) rest true := rfl
      rw [step, ih _ hr, getKey_eraseKey_ne o kv.1 k (fun e => hk e.symm)]

theorem getKey_updateObjValue_mem (o val : JObj) (k : String) (v : JVal)
    (hnd : (val.map Prod.fst).Nodup) (h : getKey val k = some v) :
    getKey (updateObjValue o val false) k = some v := by
  induction val generalizing o with
  | nil => simp [getKey] at h
  | cons kv rest ih =>
    obtain ⟨k1, v1⟩ := kv
    have step : updateObjValue o ((k1, v1) :: rest) false
        = updateObjValue (setKey o k1 v1) rest false := rfl
    have hnd2 : k1 ∉ rest.map Prod.fst ∧ (rest.map Prod.fst).Nodup := by
      rw [List.map_cons, List.nodup_cons] at hnd
      exact hnd
    by_cases hk : k1 = k
    · subst hk
      have hv : v = v1 := by simpa [getKey] using h.symm
      subst hv
      rw [step, getKey_updateObjValue_not_mem _ rest false k1 hnd2.1,
        getKey_setKey_self]
    · have h2 : getKey rest k = some v := by simpa [getKey, hk] using h
      rw [step, ih _ hnd2.2 h2]

theorem getKey_updateObjValue_removed (o val : JObj) (k : String)
    (h : k ∈ val.map Prod.fst) :
    getKey (updateObjValue o val true) k = none := by
  induction val generalizing o with
  | nil => simp at h
  | cons kv rest ih =>
    have step : updateObjValue o (kv :: rest) true
        = updateObjValue (eraseKey o kv.1) rest true := rfl
    by_cases hm : k ∈ rest.map Prod.fst
    · rw [step, ih _ hm]
    · have hk : kv.1 = k := by
        rcases (by simpa using h) with h1 | h1
        · exact h1.symm
        · exact absurd (by simpa using h1) hm
      rw [step, getKey_updateObjValue_not_mem _ rest true k hm, hk,
        getKey_eraseKey_self]

/-- Claim C10 counterexample: on a successful update the value passed to
the store put still carries the original etag, not the new tag returned by
the store (the new tag is only set on the value handed back to the
callback), so the written value does not have its etag field set to the new
tag. -/
theorem C10_update_frame_counterexample :
    getKey (updateObj [("cn_uuid", JVal.vstr "cn1"), ("etag", JVal.vstr "oldtag")]
        [("pin", JVal.vstr "99")] false (Except.ok "newtag")).written "etag"
      ≠ some (JVal.vstr "newtag")
    ∧ getKey (updateObj [("cn_uuid", JVal.vstr "cn1"), ("etag", JVal.vstr "oldtag")]
        [("pin", JVal.vstr "99")] false (Except.ok "newtag")).written "etag"
      = some (JVal.vstr "oldtag") := by
  exact ⟨by decide, by decide⟩

/-- Claim C10 (amended): on a successful update the value written to the
store is the deep copy of the original in which exactly the keys of val are
overwritten (or deleted when remove is set) and every other field,
including the etag field, is unchanged; the value returned to the callback
is that same merged value with its etag then set to the tag the store
returned; the caller original is untouched (the merge operates on a copy,
so the original object still appears unchanged on the untouched keys). -/
theorem C10_update_frame_amended (original val : JObj) (rmv : Bool) (newTag : String)
    (hnd : (val.map Prod.fst).Nodup) :
    (updateObj original val rmv (Except.ok newTag)).err = none
    ∧ (updateObj original val rmv (Except.ok newTag)).written
        = updateObjValue original val rmv
    ∧ (∀ k, k ∉ val.map Prod.fst →
        getKey (updateObj original val rmv (Except.ok newTag)).written k
          = getKey original k)
    ∧ (∀ k v, rmv = false → getKey val k = some v →
        getKey (updateObj original val rmv (Except.ok newTag)).written k = some v)
    ∧ (∀ k, rmv = true → k ∈ val.map Prod.fst →
        getKey (updateObj original val rmv (Except.ok newTag)).written k = none)
    ∧ (updateObj original val rmv (Except.ok newTag)).result =
        some (setKey (updateObjValue original val rmv) "etag" (JVal.vstr newTag))
    ∧ getKey (setKey (updateObjValue original val rmv) "etag" (JVal.vstr newTag)) "etag"
        = some (JVal.vstr newTag)
    ∧ (∀ k, k ≠ "etag" →
        getKey (setKey (updateObjValue original val rmv) "etag" (JVal.vstr newTag)) k
          = getKey (updateObjValue original val rmv) k) := by
  refine ⟨rfl, rfl, ?_, ?_, ?_, rfl, getKey_setKey_self _ _ _, ?_⟩
  · intro k hk
    exact getKey_updateObjValue_not_mem original val rmv k hk
  · intro k v hr hv
    subst hr
    exact getKey_updateObjValue_mem original val k v hnd hv
  · intro k hr hk
    subst hr
    exact getKey_updateObjValue_removed original val k hk
  · intro k hk
    exact getKey_setKey_ne _ "etag" k _ hk

/-- Original record used by the C10 witness. -/
def updOrigW : JObj := [("cn_uuid", JVal.vstr "cn1"), ("etag", JVal.vstr "oldtag")]

/-- Update value used by the C10 witness. -/
def updValW : JObj := [("pin", JVal.vstr "99")]

/-- Witness for the amended C10 at a concrete original, val and new tag:
the untouched field keeps its value in the written object, the updated key
carries the new value, and the callback value has the new etag. -/
theorem C10_update_frame_witness :
    ((updValW.map Prod.fst).Nodup)
    ∧ getKey (updateObj updOrigW updValW false (Except.ok "newtag")).written "cn_uuid"
        = getKey updOrigW "cn_uuid"
    ∧ getKey (updateObj updOrigW updValW false (Except.ok "newtag")).written "pin"
        = some (JVal.vstr "99")
    ∧ getKey (setKey (updateObjValue updOrigW updValW false) "etag"
        (JVal.vstr "newtag")) "etag" = some (JVal.vstr "newtag") :=
  ⟨by decide,
   (C10_update_frame_amended updOrigW updValW false "newtag" (by decide)).2.2.1
      "cn_uuid" (by decide),
   (C10_update_frame_amended updOrigW updValW false "newtag" (by decide)).2.2.2.1
      "pin" (JVal.vstr "99") rfl (by decide),
   (C10_update_frame_amended updOrigW updValW false "newtag" (by decide)).2.2.2.2.2.2.1⟩

theorem jsJoinChar_ne_nil_of_head (sep : Char) (x : List Char)
    (xs : List (List Char)) (hx : x ≠ []) : jsJoinChar sep (x :: xs) ≠ [] := by
  cases xs with
  | nil => simpa [jsJoinChar] using hx
  | cons y ys => simp [jsJoinChar]

/-- The empty array encodes to the delimiter-only string. -/
theorem arrayToVal_nil : arrayToVal [] = ",," := rfl

/-- Claim C4 counterexample: decoding the encoding of the empty array does
not restore an empty-array field; the field is deleted from the params
object instead (the result object is empty and has no such field). -/
theorem C4_roundtrip_counterexample :
    valToArray [("f", JVal.vstr (arrayToVal []))] "f" = Except.ok []
    ∧ getKey [] "f" ≠ some (JVal.varr []) :=
  ⟨rfl, by decide⟩

/-- Claim C4 (amended): for every array of delimiter-free strings except
the two arrays whose encoding is the delimiter-only string (the empty
array and the one-element array holding the empty string), the store-layer
encoding round-trips through valToArray, restoring the field to an array
equal to the input - arrays with empty elements among two or more entries
round-trip as well; the empty array encodes to the delimiter-only string,
which valToArray decodes by deleting the field rather than by restoring an
empty array. -/
theorem C4_roundtrip_amended (k : String) (arr : List String) (hne : arr ≠ [])
    (hsingle : arr ≠ [""]) (helts : ∀ s ∈ arr, ',' ∉ s.data) :
    valToArray [(k, JVal.vstr (arrayToVal arr))] k
      = Except.ok [(k, JVal.varr (arr.map JPrim.pstr))]
    ∧ valToArray [(k, JVal.vstr (arrayToVal []))] k = Except.ok [] := by
  constructor
  · have hJne : jsJoinChar ',' (arr.map String.data) ≠ [] := by
      obtain ⟨a, rest, rfl⟩ := List.exists_cons_of_ne_nil hne
      cases rest with
      | nil =>
        intro hj
        simp only [List.map_cons, List.map_nil, jsJoinChar] at hj
        exact hsingle (by rw [show a = "" from congrArg String.mk hj])
      | cons b rs => simp [jsJoinChar]
    have hmapne : arr.map String.data ≠ [] := by simp [hne]
    have hnosep : ∀ x ∈ arr.map String.data, ',' ∉ x := by
      intro x hx
      obtain ⟨s, hs, rfl⟩ := List.mem_map.mp hx
      exact helts s hs
    have hsplit : jsSplitChar ',' (jsJoinChar ',' (arr.map String.data))
        = arr.map String.data :=
      jsSplit_jsJoin ',' _ hmapne hnosep
    have hneq : arrayToVal arr ≠ ",," := by
      intro h
      rw [arrayToVal] at h
      have h2 := congrArg String.data h
      have h3 := congrArg List.length h2
      simp at h3
      exact hJne h3
    have hstrip : stripTrailChar ',' (stripLeadChar ',' (arrayToVal arr).data)
        = jsJoinChar ',' (arr.map String.data) := by
      rw [show (arrayToVal arr).data
          = ',' :: (jsJoinChar ',' (arr.map String.data) ++ [',']) from rfl]
      simp [stripLeadChar, stripTrailChar, List.getLast?_concat, List.dropLast_concat]
    have hmkne : String.mk (jsJoinChar ',' (arr.map String.data)) ≠ "" := by
      intro h
      exact hJne (congrArg String.data h)
    have hdm : ∀ l : List Char, (String.mk l).data = l := fun l => rfl
    have heta : ∀ s : String, JPrim.pstr (String.mk s.data) = JPrim.pstr s :=
      fun s => rfl
    simp [valToArray, getKey, hneq, hstrip, arrayify, hmkne, hdm, hsplit,
      List.map_map, Function.comp, heta, setKey]
  · have h0 : arrayToVal [] = ",," := rfl
    simp [valToArray, h0, getKey, eraseKey]

/-- Witness for the amended C4: a plain two-element array, and the
two-empty-element array whose encoding is a three-delimiter string, both
round-trip at a concrete field. -/
theorem C4_roundtrip_witness :
    (["k1v", "k2v"] : List String) ≠ []
    ∧ (["", ""] : List String) ≠ [""]
    ∧ (valToArray [("f", JVal.vstr (arrayToVal ["k1v", "k2v"]))] "f"
        = Except.ok [("f", JVal.varr (["k1v", "k2v"].map JPrim.pstr))]
      ∧ valToArray [("f", JVal.vstr (arrayToVal []))] "f" = Except.ok [])
    ∧ (valToArray [("g", JVal.vstr (arrayToVal ["", ""]))] "g"
        = Except.ok [("g", JVal.varr (["", ""].map JPrim.pstr))]
      ∧ valToArray [("g", JVal.vstr (arrayToVal []))] "g" = Except.ok []) :=
  ⟨by decide, by decide,
   C4_roundtrip_amended "f" ["k1v", "k2v"] (by decide) (by decide) (by decide),
   C4_roundtrip_amended "g" ["", ""] (by decide) (by decide) (by decide)⟩
